import Mathlib

/-!
Verification of the command assembly and image-operation dispatch layer of
virttest/qemu_storage.py (avocado-vt).  Python functions are shallowly
embedded as executable Lean definitions: strings are Lean strings, Python
dictionaries are ordered association lists, fallible code returns Option or
Except, and the external collaborators (process executor, path resolver,
secret provider, parameter scoping) appear as explicit inputs, modelled at
their interface boundary.
-/

/-! ## Python value model -/

/-- Model of the Python values that flow through the command formatter:
None, a boolean, or a string. -/
inductive PyVal
  | none
  | bool (b : Bool)
  | str (s : String)
deriving DecidableEq

/-- Python truthiness for the modelled values. -/
def PyVal.truthy : PyVal → Bool
  | .none => false
  | .bool b => b
  | .str s => !(s == "")

/-- Python str() for the modelled values. -/
def pyStr : PyVal → String
  | .none => "None"
  | .bool true => "True"
  | .bool false => "False"
  | .str s => s

/-- Replacement of each maximal run of spaces by a single space, on
character lists: the effect of re.sub of one-or-more spaces with one space. -/
def collapseChars : List Char → List Char
  | [] => []
  | [c] => [c]
  | c1 :: c2 :: rest =>
    if c1 = ' ' ∧ c2 = ' ' then collapseChars (c2 :: rest)
    else c1 :: collapseChars (c2 :: rest)

/-- String version of collapseChars. -/
def collapseSpaces (s : String) : String := ⟨collapseChars s.data⟩

/-- Decides that no two adjacent characters are both spaces. -/
def noDoubleSpaceB : List Char → Bool
  | c1 :: c2 :: rest => (!(c1 = ' ' && c2 = ' ')) && noDoubleSpaceB (c2 :: rest)
  | _ => true

/-- Digit-string parser, the relevant fragment of Python int(). -/
def pyIntAux : List Char → Nat → Option Nat
  | [], acc => some acc
  | c :: r, acc => if c.isDigit then pyIntAux r (acc * 10 + (c.toNat - 48)) else none

/-- Parse a nonempty decimal digit string, as Python int() does on the size
prefixes the claims are about; anything else is a ValueError, i.e. none. -/
def pyInt (l : List Char) : Option Nat :=
  if l = [] then none else pyIntAux l 0

/-- Fuel-driven non-overlapping left-to-right replacement on character
lists; fuel makes the recursion structural so that it evaluates by decide.
With fuel at least the length of the list it is Python str.replace. -/
def pyReplaceFuel (pat rep : List Char) : Nat → List Char → List Char
  | 0, l => l
  | _ + 1, [] => []
  | fuel + 1, c :: rest =>
    if pat ≠ [] ∧ pat.isPrefixOf (c :: rest) then
      rep ++ pyReplaceFuel pat rep fuel (List.drop (pat.length - 1) rest)
    else c :: pyReplaceFuel pat rep fuel rest

/-- Python str.replace, replacing every occurrence of pat by rep. -/
def pyReplace (l pat rep : List Char) : List Char := pyReplaceFuel pat rep l.length l

/-- Python str.strip applied with a comma argument: drop leading and
trailing commas. -/
def stripCommas (s : String) : String :=
  ⟨((s.data.dropWhile (· = ',')).reverse.dropWhile (· = ',')).reverse⟩

/-- A single-quote character, used where the source wraps a json image
representation in shell quotes. -/
def sqChar : Char := Char.ofNat 39

/-- Wrap a string in single quotes, the %s-in-quotes formatting of the
source. -/
def quoted (s : String) : String := ⟨sqChar :: s.data ++ [sqChar]⟩

/-! ## Data model: secrets, encryption configuration, parameters, image -/

/-- A key secret object as exposed by the secret provider: an identifier
(aid), opaque data, and the tag of the image it belongs to. -/
structure ImageSecret where
  aid : String
  data : String
  image_id : String
deriving DecidableEq

/-- Modelled from the spec: storage.ImageEncryption, the encryption
configuration collaborator.  Zero or more key-secret objects plus
format-specific encryption attributes (cipher, ivgen, hash, key-secret id);
iterating the object yields its attribute names; image_key_secrets is the
list of all key secrets a command on this image requires. -/
structure EncryptionConfig where
  format : Option String := Option.none
  key_secret : Option ImageSecret := Option.none
  base_key_secrets : List ImageSecret := []
  cipher_alg : Option String := Option.none
  cipher_mode : Option String := Option.none
  ivgen_alg : Option String := Option.none
  ivgen_hash_alg : Option String := Option.none
  hash_alg : Option String := Option.none
  image_key_secrets : List ImageSecret := []
deriving DecidableEq

/-- Modelled from the spec: the scoped key-value parameter source.  Only the
keys read by the embedded functions appear; a field holding none models an
absent key.  image_filename is the path the path resolver returns for these
parameters. -/
structure Params where
  image_filename : String := ""
  image_format : Option String := Option.none
  image_encryption : Option String := Option.none
  image_secret : Option ImageSecret := Option.none
  preallocated : Option String := Option.none
  image_cluster_size : Option String := Option.none
  lazy_refcounts : Option String := Option.none
  qcow2_compatible : Option String := Option.none
  image_extra_params : Option String := Option.none
  has_backing_file : Option String := Option.none
  create_with_dd : Option String := Option.none
  backup_image_on_check_error : Option String := Option.none
deriving DecidableEq

/-- Modelled from the spec: storage.get_image_filename, the path resolver
collaborator, which resolves parameters to an image path. -/
def storage_get_image_filename (p : Params) (root_dir : String) : String :=
  let _ := root_dir
  p.image_filename

/-- Modelled from the spec: ImageSecret.image_secret_define_by_params, the
secret provider collaborator: zero-or-one secret object for an image. -/
def image_secret_define_by_params (image : String) (p : Params) : Option ImageSecret :=
  let _ := image
  p.image_secret

/-- The attributes of a QemuImg object that the embedded operations read. -/
structure ImageState where
  tag : String
  image_filename : String
  image_format : String
  size : String := ""
  base_tag : Option String := Option.none
  base_image_filename : String := ""
  base_format : Option String := Option.none
  encryption_config : EncryptionConfig := {}
  cap_force_share : Bool := false
  help_supports : List String := []
  image_cmd : String := "qemu-img"
  root_dir : String := ""
  params : Params := {}
deriving DecidableEq

/-- Captured result of one external-process invocation. -/
structure CmdResult where
  exit_status : Nat
  stdout : String := ""
  stderr : String := ""
deriving DecidableEq

/-- Model of process.run: returns the captured result, except that a
non-zero exit with ignore_status false raises CmdError. -/
def process_run (cmd : String) (ignore_status : Bool) (r : CmdResult) :
    Except String CmdResult :=
  if r.exit_status ≠ 0 ∧ ignore_status = false then Except.error ("CmdError: " ++ cmd)
  else Except.ok r

/-- support_cmd of QemuImg: whether the help text advertises a sub-command;
the free-form help text is modelled as the set of advertised sub-commands. -/
def support_cmd (img : ImageState) (cmd : String) : Bool :=
  img.help_supports.contains cmd

/-! ## The image representation resolver -/

/-- A value in the image meta dictionary: the shapes the source builds are
finite (string leaves and one nested file dictionary of string leaves). -/
inductive MetaVal
  | str (s : String)
  | dict (d : List (String × String))
deriving DecidableEq

/-- The aid attribute access on the optional secret: the source would raise
AttributeError if no secret is defined where one is required. -/
def secretAid : Option ImageSecret → String
  | some s => s.aid
  | Option.none => ""

/-- The image meta dictionary of _get_image_meta, as an ordered association
list. -/
def _get_image_meta (image : String) (p : Params) (root_dir : String) :
    List (String × MetaVal) :=
  let image_filename := storage_get_image_filename p root_dir
  let image_format := p.image_format.getD "qcow2"
  let image_encryption := p.image_encryption.getD "off"
  let secret := image_secret_define_by_params image p
  (if image_format = "qcow2" ∧ image_encryption = "luks"
    then [("encrypt.key-secret", MetaVal.str (secretAid secret))] else [])
  ++ [("driver", MetaVal.str image_format),
      ("file", MetaVal.dict [("driver", "file"), ("filename", image_filename)])]
  ++ (if image_format = "luks" then [("key-secret", MetaVal.str (secretAid secret))] else [])

/-- A json string literal (escaping is not needed for the identifiers and
paths in scope). -/
def jsonQuote (s : String) : String := "\"" ++ s ++ "\""

/-- json.dumps of one meta value. -/
def jsonDumpVal : MetaVal → String
  | .str s => jsonQuote s
  | .dict d =>
    "\x7b" ++ String.intercalate ", " (d.map fun kv => jsonQuote kv.1 ++ ": " ++ jsonQuote kv.2)
      ++ "\x7d"

/-- json.dumps of the meta dictionary, with the default separators of the
Python json module. -/
def json_dumps (meta : List (String × MetaVal)) : String :=
  "\x7b" ++ String.intercalate ", " (meta.map fun kv => jsonQuote kv.1 ++ ": " ++ jsonDumpVal kv.2)
    ++ "\x7d"

/-- get_image_json: the json representation of an image. -/
def get_image_json (image : String) (p : Params) (root_dir : String) : String :=
  "json:" ++ json_dumps (_get_image_meta image p root_dir)

/-- The depth-first flattening of the meta dictionary into dotted keys. -/
def _dict_to_dot (meta : List (String × MetaVal)) : List (String × String) :=
  meta.flatMap fun kv =>
    match kv.2 with
    | .str v => [(kv.1, v)]
    | .dict d => d.map fun kv2 => (kv.1 ++ "." ++ kv2.1, kv2.2)

/-- get_image_opts: the flattened dotted-key representation of an image. -/
def get_image_opts (image : String) (p : Params) (root_dir : String) : String :=
  String.intercalate ","
    ((_dict_to_dot (_get_image_meta image p root_dir)).map fun kv => kv.1 ++ "=" ++ kv.2)

/-- get_image_repr: pick the representation requested by name; with no
explicit (or an unknown) representation, use json when the image has an
associated secret and the bare filename otherwise. -/
def get_image_repr (image : String) (p : Params) (root_dir : String)
    (representation : Option String) : String :=
  match representation with
  | some "filename" => storage_get_image_filename p root_dir
  | some "json" => get_image_json image p root_dir
  | some "opts" => get_image_opts image p root_dir
  | _ =>
    if (image_secret_define_by_params image p).isSome then get_image_json image p root_dir
    else storage_get_image_filename p root_dir

/-! ## The parameter assembler -/

/-- A conversion code of the formatter: the default, v (parameter and
value) or b (parameter kept only when the value is truthy). -/
inductive Conv
  | default
  | v
  | b
deriving DecidableEq

/-- One piece of a format template: a literal chunk or a named placeholder
with its conversion code. -/
inductive TPart
  | lit (s : String)
  | field (name : String) (conv : Conv)
deriving DecidableEq

/-- get_value of the assembler: look the key up in the keyword mapping,
fall back to a None value when the key is at least a known parameter, and
pair the result with the parameter flag (none models the sentinel for a key
outside the parameter table).  A completely unknown key is a KeyError,
modelled as none. -/
def pa_get_value (cmd_params : List (String × String)) (kwargs : List (String × PyVal))
    (key : String) : Option (Option String × PyVal) :=
  match kwargs.lookup key with
  | some v => some (cmd_params.lookup key, v)
  | Option.none =>
    match cmd_params.lookup key with
    | some flag => some (some flag, PyVal.none)
    | Option.none => Option.none

/-- convert_field of the assembler.  none models an exception: an unknown
conversion on a sentinel value, or joining a flag with a non-string. -/
def pa_convert_field (value : Option String × PyVal) (conversion : Conv) : Option String :=
  match value.1 with
  | Option.none =>
    match conversion with
    | .default => some (pyStr value.2)
    | _ => Option.none
  | some flag =>
    let conversion := if conversion = Conv.default then Conv.v else conversion
    match conversion with
    | .v =>
      match value.2 with
      | .none => some ""
      | .str s => some (flag ++ " " ++ s)
      | .bool _ => Option.none
    | .b => some (if value.2.truthy then flag else "")
    | .default => Option.none

/-- Render a template against the keyword mapping, concatenating literal
chunks and converted fields; none models a formatting exception. -/
def renderParts (cmd_params : List (String × String)) (kwargs : List (String × PyVal)) :
    List TPart → Option String
  | [] => some ""
  | .lit s :: rest => (renderParts cmd_params kwargs rest).map (s ++ ·)
  | .field name conv :: rest =>
    match pa_get_value cmd_params kwargs name with
    | Option.none => Option.none
    | some v =>
      match pa_convert_field v conv with
      | Option.none => Option.none
      | some s => (renderParts cmd_params kwargs rest).map (s ++ ·)

/-- format of the assembler: render, then replace every run of spaces by a
single space. -/
def pa_format (cmd_params : List (String × String)) (parts : List TPart)
    (kwargs : List (String × PyVal)) : Option String :=
  (renderParts cmd_params kwargs parts).map collapseSpaces

/-- The parameter table of QemuImg. -/
def qemu_img_parameters : List (String × String) :=
  [("image_format", "-f"), ("backing_file", "-b"), ("backing_format", "-F"),
   ("unsafe", "-u"), ("options", "-o"), ("secret_object", ""), ("image_opts", ""),
   ("check_repair", "-r"), ("output_format", "--output"), ("force_share", "-U"),
   ("resize_preallocation", "--preallocation"), ("resize_shrink", "--shrink")]

/-- The create command template of QemuImg. -/
def create_cmd : List TPart :=
  [.lit "create ", .field "secret_object" .default, .lit " ", .field "image_format" .default,
   .lit " ", .field "backing_file" .default, .lit " ", .field "backing_format" .default,
   .lit " ", .field "unsafe" .b, .lit " ", .field "options" .default, .lit " ",
   .field "image_filename" .default, .lit " ", .field "image_size" .default]

/-- The check command template of QemuImg. -/
def check_cmd : List TPart :=
  [.lit "check ", .field "secret_object" .default, .lit " ", .field "image_opts" .default,
   .lit " ", .field "image_format" .default, .lit " ", .field "output_format" .default,
   .lit " ", .field "check_repair" .default, .lit " ", .field "force_share" .b,
   .lit " ", .field "image_filename" .default]

/-- The resize command template of QemuImg. -/
def resize_cmd : List TPart :=
  [.lit "resize ", .field "secret_object" .default, .lit " ", .field "image_opts" .default,
   .lit " ", .field "resize_shrink" .b, .lit " ", .field "resize_preallocation" .default,
   .lit " ", .field "image_filename" .default, .lit " ", .field "image_size" .default]

/-! ## The option builder: _parse_options -/

/-- One row of the options_mapping loop of _parse_options: the option is
considered only if the active format is in its supported set, takes the
parameter value with its default, and is dropped when the value is None or
off. -/
def ruleOpt (fmt : String) (supported : List String) (value : Option String)
    (opt_key : String) : List String :=
  if fmt ∈ supported then
    match value with
    | some v => if v = "off" then [] else [opt_key ++ "=" ++ v]
    | Option.none => []
  else []

/-- The first rule block of _parse_options, iterating the options_mapping
table in its insertion order. -/
def rule1Options (p : Params) (fmt : String) : List String :=
  ruleOpt fmt ["qcow2", "raw", "luks"] (some (p.preallocated.getD "off")) "preallocation"
  ++ ruleOpt fmt ["qcow2"] p.image_cluster_size "cluster_size"
  ++ ruleOpt fmt ["qcow2"] p.lazy_refcounts "lazy_refcounts"
  ++ ruleOpt fmt ["qcow2"] p.qcow2_compatible "compat"

/-- Modelled from the spec: the attribute-name list obtained by iterating
an ImageEncryption object, in declaration order. -/
def enc_slots : List String :=
  ["format", "key_secret", "base_key_secrets", "cipher_alg", "cipher_mode",
   "ivgen_alg", "ivgen_hash_alg", "hash_alg"]

/-- Modelled from the spec: getattr on the encryption configuration, with
str() applied; the key-secret attribute reports the secret id. -/
def enc_getattr (e : EncryptionConfig) : String → Option String
  | "format" => e.format
  | "key_secret" => e.key_secret.map (·.aid)
  | "cipher_alg" => e.cipher_alg
  | "cipher_mode" => e.cipher_mode
  | "ivgen_alg" => e.ivgen_alg
  | "ivgen_hash_alg" => e.ivgen_hash_alg
  | "hash_alg" => e.hash_alg
  | _ => Option.none

/-- Replace underscores by dashes, as the source does on option keys. -/
def dashify (s : String) : String := ⟨pyReplace s.data "_".data "-".data⟩

/-- The encrypt-prefixing of an encryption option key under qcow2. -/
def encPref (fmt : String) (opt_key : String) : String :=
  if fmt = "qcow2" then "encrypt." ++ opt_key else opt_key

/-- The encryption block of _parse_options: iterate the attribute names
minus base_key_secrets (and minus format under luks); keep truthy values,
prefix under qcow2, and dash-separate the key. -/
def encOptions (fmt : String) (e : EncryptionConfig) : List String :=
  let opts := enc_slots.erase "base_key_secrets"
  let opts := if fmt = "luks" then opts.erase "format" else opts
  opts.filterMap fun opt_key =>
    match enc_getattr e opt_key with
    | some v =>
      if v = "" then Option.none
      else some (dashify (encPref fmt opt_key) ++ "=" ++ v)
    | Option.none => Option.none

/-- The free-form extra options block of _parse_options: the whole string,
stripped of leading and trailing commas, appended as one entry when
truthy. -/
def extraOptions (p : Params) : List String :=
  match p.image_extra_params with
  | some s => if s = "" then [] else [stripCommas s]
  | Option.none => []

/-- The backing-file block of _parse_options; backing_params models
params.object_params applied to the backing file scope, the external
parameter-scoping collaborator. -/
def backingOptions (p : Params) (backing_params : Params) (root_dir : String) : List String :=
  if p.has_backing_file = some "yes" then
    ["backing_file" ++ "=" ++ storage_get_image_filename backing_params root_dir,
     "backing_fmt" ++ "=" ++ (backing_params.image_format.getD "None")]
  else []

/-- _parse_options of QemuImg: the option list for create, amend, convert
and measure. -/
def _parse_options (e : EncryptionConfig) (root_dir : String) (p : Params)
    (backing_params : Params) : List String :=
  let image_format := p.image_format.getD "qcow2"
  rule1Options p image_format
  ++ (if e.key_secret.isSome then encOptions image_format e else [])
  ++ extraOptions p
  ++ backingOptions p backing_params root_dir

/-- The key of a key=value option entry: the characters before the first
equals sign. -/
def entryKey (s : String) : String := ⟨s.data.takeWhile (· != '=')⟩

/-! ## Secret objects and the image operations -/

/-- The secret-object clause generated for one key secret. -/
def secret_obj_str (s : ImageSecret) : String :=
  "--object secret,id=" ++ s.aid ++ ",data=" ++ s.data

/-- _secret_objects of QemuImg: one clause for each entry of the
image_key_secrets list. -/
def _secret_objects (e : EncryptionConfig) : List String :=
  e.image_key_secrets.map secret_obj_str

/-- Ordered-dictionary update: replace the value at a key in place. -/
def assocSet (l : List (String × PyVal)) (k : String) (v : PyVal) : List (String × PyVal) :=
  l.map fun kv => if kv.1 = k then (k, v) else kv

/-- Ordered-dictionary lookup. -/
def assocLookup : List (String × PyVal) → String → Option PyVal
  | [], _ => Option.none
  | kv :: rest, k => if kv.1 = k then some kv.2 else assocLookup rest k

/-- The human-unit table of the dd branch of create: suffix to count
multiplier and block size (in units of 1024 bytes, as the command text
writes bs with a K suffix). -/
def ddHuman (c : Char) : Option (Nat × Nat) :=
  if c = 'K' then some (1, 1)
  else if c = 'M' then some (1, 1024)
  else if c = 'G' then some (1024, 1024)
  else if c = 'T' then some (1024, 1048576)
  else Option.none

/-- What create resolves to before the external process runs: a dd
byte-copy command with its count and block size (in K units), or a
qemu-img create command described by its keyword dictionary. -/
inductive CreateAction
  | dd (count : Nat) (bs : Nat) (filename : String)
  | qemuImg (cmd_dict : List (String × PyVal))
deriving DecidableEq

/-- The keyword dictionary that create builds for the command formatter.
base_params models params.object_params applied to the base tag and
backing_params the object_params scope used inside _parse_options (both
external parameter-scoping collaborators). -/
def createCmdDict (img : ImageState) (p : Params) (base_params backing_params : Params) :
    List (String × PyVal) :=
  let d : List (String × PyVal) := [("image_format", PyVal.str img.image_format)]
  let d := match img.base_tag with
    | some t =>
      if t ∈ (img.encryption_config.base_key_secrets.map (·.image_id)) then
        d ++ [("backing_file",
               PyVal.str (quoted (get_image_json t base_params img.root_dir)))]
      else
        (d ++ [("backing_file", PyVal.str img.base_image_filename)])
        ++ (match img.base_format with
            | some bf => [("backing_format", PyVal.str bf)]
            | Option.none => [])
    | Option.none => d
  let secret_objects := _secret_objects img.encryption_config
  let d := if secret_objects ≠ [] then
      d ++ [("secret_object", PyVal.str (String.intercalate " " secret_objects))]
    else d
  let d := d ++ [("image_filename", PyVal.str img.image_filename),
                 ("image_size", PyVal.str img.size)]
  let options := _parse_options img.encryption_config img.root_dir p backing_params
  if options ≠ [] then d ++ [("options", PyVal.str (String.intercalate "," options))] else d

/-- create of QemuImg up to the external invocation: the dd branch when
requested with raw format (none models the unhandled error raised while
building the command, before any process is spawned), else the qemu-img
branch with its keyword dictionary. -/
def create (img : ImageState) (p : Params) (base_params backing_params : Params) :
    Option CreateAction :=
  if p.create_with_dd = some "yes" ∧ img.image_format = "raw" then
    match img.size.data.getLast? with
    | Option.none => Option.none
    | some last =>
      match ddHuman last with
      | some (mult, bs) =>
        (pyInt img.size.data.dropLast).map fun n =>
          CreateAction.dd (n * mult) bs img.image_filename
      | Option.none => Option.none
  else some (CreateAction.qemuImg (createCmdDict img p base_params backing_params))

/-- The four-way outcome of the check classification: a normal return, the
non-fatal TestWarn for internal errors, the fatal VMImageCheckError for
data corruption, and the non-fatal TestWarn for leaked clusters; the flag
records whether the backup action was triggered before raising. -/
inductive CheckClassification
  | passed
  | testWarnInternal (backup : Bool)
  | vmImageCheckError (backup : Bool)
  | testWarnLeaked
deriving DecidableEq

/-- The result of check_image: silently skipped, or run with the keyword
dictionary it assembled and the classified outcome. -/
inductive CheckResult
  | skipped
  | ran (cmd_dict : List (String × PyVal)) (c : CheckClassification)
deriving DecidableEq

/-- The classification of a check result, when a check ran. -/
def CheckResult.classification : CheckResult → Option CheckClassification
  | .skipped => Option.none
  | .ran _ c => some c

/-- The keyword dictionary of a check result, when a check ran. -/
def CheckResult.cmdDict : CheckResult → Option (List (String × PyVal))
  | .skipped => Option.none
  | .ran d _ => some d

/-- check_image of QemuImg.  file_exists models storage.file_exists and
is_remote the remote-image test (external collaborators); exit_status is
the exit of the external check command. -/
def check_image (img : ImageState) (p : Params) (root_dir : String)
    (force_share : Bool) (file_exists is_remote : Bool) (exit_status : Nat) : CheckResult :=
  let image_filename := img.image_filename
  let image_is_checkable := img.image_format = "qcow2" ∨ img.image_format = "qed"
  let fs := force_share && img.cap_force_share
  if (file_exists = true ∨ is_remote = true) ∧ image_is_checkable then
    let check_img := support_cmd img "check" && support_cmd img "info"
    if check_img = false then CheckResult.skipped
    else
      let cmd_dict : List (String × PyVal) :=
        [("image_filename", PyVal.str image_filename), ("force_share", PyVal.bool fs)]
      let cmd_dict := if img.encryption_config.key_secret.isSome then
          assocSet cmd_dict "image_filename"
            (PyVal.str (quoted (get_image_json img.tag p root_dir)))
        else cmd_dict
      let secret_objects := _secret_objects img.encryption_config
      let cmd_dict := if secret_objects ≠ [] then
          cmd_dict ++ [("secret_object", PyVal.str (String.intercalate " " secret_objects))]
        else cmd_dict
      let backup := p.backup_image_on_check_error.getD "no" == "yes"
      if exit_status = 1 then CheckResult.ran cmd_dict (CheckClassification.testWarnInternal backup)
      else if exit_status = 2 then
        CheckResult.ran cmd_dict (CheckClassification.vmImageCheckError backup)
      else if exit_status = 3 then CheckResult.ran cmd_dict CheckClassification.testWarnLeaked
      else CheckResult.ran cmd_dict CheckClassification.passed
  else CheckResult.skipped

/-- resize of QemuImg: the keyword dictionary it renders and the captured
result, which is returned without raising (the run ignores the exit
status). -/
def resize (img : ImageState) (size : String) (shrink : Bool)
    (preallocation : Option String) (r : CmdResult) :
    List (String × PyVal) × CmdResult :=
  let cmd_dict : List (String × PyVal) :=
    [("resize_shrink", PyVal.bool shrink),
     ("resize_preallocation",
       match preallocation with
       | some s => PyVal.str s
       | Option.none => PyVal.none),
     ("image_filename", PyVal.str img.image_filename),
     ("image_size", PyVal.str size)]
  let cmd_dict := if img.encryption_config.key_secret.isSome then
      assocSet cmd_dict "image_filename"
        (PyVal.str (quoted (get_image_json img.tag img.params img.root_dir)))
    else cmd_dict
  let secret_objects := _secret_objects img.encryption_config
  let cmd_dict := if secret_objects ≠ [] then
      cmd_dict ++ [("secret_object", PyVal.str (String.intercalate " " secret_objects))]
    else cmd_dict
  (cmd_dict, r)

/-- The outcome of compare_images: a silent None return with a warning when
the compare sub-command is unsupported, the returned command result for
exit 0, the fatal TestFail for exit 1, and the fatal TestError otherwise. -/
inductive CompareOutcome
  | unsupportedNone
  | result (r : CmdResult)
  | testFailDiffer
  | testErrorCompare
deriving DecidableEq

/-- compare_images of QemuImg; r is the captured result of the external
compare command. -/
def compare_images (img : ImageState) (image1 image2 : String)
    (strict_mode force_share : Bool) (r : CmdResult) : CompareOutcome :=
  let fs := force_share && img.cap_force_share
  if support_cmd img "compare" = false then CompareOutcome.unsupportedNone
  else
    let compare_cmd := img.image_cmd ++ " compare"
    let compare_cmd := if fs then compare_cmd ++ " -U" else compare_cmd
    let compare_cmd := if strict_mode then compare_cmd ++ " -s" else compare_cmd
    let _ := compare_cmd ++ " " ++ image1 ++ " " ++ image2
    if r.exit_status = 0 then CompareOutcome.result r
    else if r.exit_status = 1 then CompareOutcome.testFailDiffer
    else CompareOutcome.testErrorCompare

/-- The amend option list: every amend_-prefixed parameter flattened to
key=value with the prefix stripped, in parameter order. -/
def amendOptions (params : List (String × String)) : List String :=
  params.filterMap fun kv =>
    if List.isPrefixOf "amend_".data kv.1.data then
      some (⟨kv.1.data.drop 6⟩ ++ "=" ++ kv.2)
    else Option.none

/-- The amend command line: options joined and the extra_params marker
removed so its value merges bare. -/
def amendCmdline (img : ImageState) (params : List (String × String))
    (cache_mode : Option String) : String :=
  let cmd_list := [img.image_cmd, "amend"]
  let options := amendOptions params
  let cmd_list := cmd_list ++ (match cache_mode with
    | some m => ["-t " ++ m]
    | Option.none => [])
  let cmd_list := cmd_list ++ (if options = [] then [] else
    ["-o " ++ ⟨pyReplace (String.intercalate "," options).data "extra_params=".data []⟩])
  let cmd_list := cmd_list ++ ["-f " ++ img.image_format ++ " " ++ img.image_filename]
  String.intercalate " " cmd_list

/-- amend of QemuImg; r is the captured result of the external command.
The source calls the process runner with a literal False for its
status-ignoring flag, so the ignore_status argument received by amend has
no effect on the call. -/
def amend (img : ImageState) (params : List (String × String)) (cache_mode : Option String)
    (ignore_status : Bool) (r : CmdResult) : Except String CmdResult :=
  let _ := ignore_status
  process_run (amendCmdline img params cache_mode) false r

/-! ## Key lists used by the option-builder analysis -/

/-- The option keys owned by the options_mapping rule, in table order. -/
def rule1KeyList : List String :=
  ["preallocation", "cluster_size", "lazy_refcounts", "compat"]

/-- The option keys the encryption rule can emit under a given format. -/
def encKeys (fmt : String) : List String :=
  ((if fmt = "luks" then (enc_slots.erase "base_key_secrets").erase "format"
    else enc_slots.erase "base_key_secrets").map fun k => dashify (encPref fmt k))

/-- The option keys owned by the backing-file rule. -/
def backingKeys : List String := ["backing_file", "backing_fmt"]

/-! ## Concrete fixtures for witnesses and counterexamples -/

/-- A plain checkable qcow2 image whose tool advertises check and info. -/
def imgChk : ImageState :=
  { tag := "image1", image_filename := "/tmp/image1.qcow2", image_format := "qcow2",
    size := "1G", help_supports := ["check", "info"] }

/-- An image whose tool advertises the compare sub-command. -/
def imgCmp : ImageState :=
  { tag := "image1", image_filename := "/tmp/image1.qcow2", image_format := "qcow2",
    size := "1G", help_supports := ["compare"] }

/-- A raw image of size 2K for the dd branch. -/
def imgRaw2K : ImageState :=
  { tag := "image1", image_filename := "/tmp/image1.raw", image_format := "raw", size := "2K" }

/-- A raw image whose size has no unit suffix. -/
def imgRaw1024 : ImageState :=
  { tag := "image1", image_filename := "/tmp/image1.raw", image_format := "raw", size := "1024" }

/-- Parameters requesting the dd creation path. -/
def pDd : Params := { create_with_dd := some "yes" }

/-- The key secret of the encrypted fixture image. -/
def secS0 : ImageSecret := ⟨"s0", "d0", "image1"⟩

/-- Parameters of a luks-encrypted qcow2 image with a defined secret. -/
def pSec : Params :=
  { image_filename := "/tmp/image1.qcow2", image_format := some "qcow2",
    image_encryption := some "luks", image_secret := some secS0 }

/-- Parameters of an image with no secret. -/
def pPlain : Params := { image_filename := "/tmp/image1.qcow2", image_format := some "qcow2" }

/-- An encrypted image carrying its key secret, checkable and supported. -/
def imgSec : ImageState :=
  { tag := "image1", image_filename := "/tmp/image1.qcow2", image_format := "qcow2",
    size := "1G",
    encryption_config := { key_secret := some secS0, image_key_secrets := [secS0] },
    params := pSec, help_supports := ["check", "info"] }

/-- The key secret of the backing image of the fixture below. -/
def secB : ImageSecret := ⟨"sb", "db", "base1"⟩

/-- Parameters of the encrypted backing image. -/
def pBase : Params :=
  { image_filename := "/tmp/base1.qcow2", image_format := some "qcow2",
    image_encryption := some "luks", image_secret := some secB }

/-- An image whose backing image carries a key secret. -/
def imgWithBase : ImageState :=
  { tag := "image1", image_filename := "/tmp/image1.qcow2", image_format := "qcow2",
    size := "1G", base_tag := some "base1",
    encryption_config := { base_key_secrets := [secB], image_key_secrets := [secB] } }

/-- The keyword dictionary check_image assembles for the encrypted fixture. -/
def dSecCheck : List (String × PyVal) :=
  [("image_filename", PyVal.str (quoted (get_image_json "image1" pSec ""))),
   ("force_share", PyVal.bool false),
   ("secret_object", PyVal.str "--object secret,id=s0,data=d0")]

/-- Parameters with a backing file and an option of the first rule set. -/
def pOpt : Params :=
  { image_format := some "qcow2", preallocated := some "metadata",
    has_backing_file := some "yes" }

/-- The scoped parameters of the backing file of pOpt. -/
def pBack : Params := { image_filename := "/tmp/back.qcow2", image_format := some "qcow2" }

/-! ## Helper lemmas -/

theorem collapseChars_head? (l : List Char) : (collapseChars l).head? = l.head? := by
  induction l using collapseChars.induct with
  | case1 => rfl
  | case2 c => rfl
  | case3 c1 c2 rest h ih =>
    rw [collapseChars, if_pos h, ih]
    simp [h.1, h.2]
  | case4 c1 c2 rest h ih =>
    rw [collapseChars, if_neg h]
    rfl

theorem collapse_no_double (l : List Char) : noDoubleSpaceB (collapseChars l) = true := by
  induction l using collapseChars.induct with
  | case1 => rfl
  | case2 c => rfl
  | case3 c1 c2 rest h ih =>
    rw [collapseChars, if_pos h]; exact ih
  | case4 c1 c2 rest h ih =>
    rw [collapseChars, if_neg h]
    have hh := collapseChars_head? (c2 :: rest)
    cases hc : collapseChars (c2 :: rest) with
    | nil => rfl
    | cons d ds =>
      rw [hc] at hh
      simp only [List.head?] at hh
      have hd : d = c2 := by injection hh
      subst hd
      rw [hc] at ih
      rw [noDoubleSpaceB, ih]
      simp only [Bool.and_true]
      by_contra hcon
      apply h
      constructor
      · revert hcon
        by_cases h1 : c1 = ' ' <;> simp [h1]
      · revert hcon
        by_cases h2 : d = ' ' <;> simp [h2]

theorem takeWhile_prefix_eq (p : Char → Bool) :
    ∀ (k : List Char) (c : Char) (v : List Char), (∀ x ∈ k, p x) → p c = false →
      (k ++ c :: v).takeWhile p = k := by
  intro k
  induction k with
  | nil => intro c v _ hc; simp [List.takeWhile, hc]
  | cons a r ih =>
    intro c v hk hc
    simp only [List.cons_append, List.takeWhile]
    rw [hk a (by simp)]
    show a :: List.takeWhile p (r ++ c :: v) = a :: r
    rw [ih c v (fun x hx => hk x (by simp [hx])) hc]

theorem entryKey_concat (k v : String) (hk : ∀ c ∈ k.data, (c != '=') = true) :
    entryKey (k ++ "=" ++ v) = k := by
  unfold entryKey
  have hdata : (k ++ "=" ++ v).data = k.data ++ '=' :: v.data := by
    rw [String.data_append, String.data_append]
    show k.data ++ ['='] ++ v.data = k.data ++ '=' :: v.data
    rw [List.append_assoc]
    rfl
  rw [hdata, takeWhile_prefix_eq _ k.data '=' v.data hk (by decide)]

theorem map_filterMap_sublist {α β γ : Type} (f : α → Option β) (g : β → γ) (h : α → γ)
    (l : List α) :
    (∀ a ∈ l, ∀ b, f a = some b → g b = h a) →
    List.Sublist ((l.filterMap f).map g) (l.map h) := by
  induction l with
  | nil => intro _; exact List.Sublist.refl _
  | cons a r ih =>
    intro hfg
    rw [List.filterMap_cons]
    cases hfa : f a with
    | none =>
      simp only [List.map]
      exact (ih (fun x hx b hb => hfg x (by simp [hx]) b hb)).cons (h a)
    | some b =>
      simp only [List.map]
      rw [hfg a (by simp) b hfa]
      exact (ih (fun x hx b hb => hfg x (by simp [hx]) b hb)).cons₂ (h a)

theorem count_map_eq_countP {α : Type} (f : α → String) (l : List α) (b : String) :
    (l.map f).count b = l.countP (fun a => f a == b) := by
  induction l with
  | nil => rfl
  | cons a t ih => simp [List.map_cons, List.count_cons, List.countP_cons, ih]

theorem assocLookup_append_some (l1 l2 : List (String × PyVal)) (k : String) (v : PyVal)
    (h : assocLookup l1 k = some v) : assocLookup (l1 ++ l2) k = some v := by
  induction l1 with
  | nil => exact absurd h (by simp [assocLookup])
  | cons kv rest ih =>
    rw [List.cons_append, assocLookup]
    rw [assocLookup] at h
    by_cases hk : kv.1 = k
    · rw [if_pos hk] at h ⊢; exact h
    · rw [if_neg hk] at h ⊢; exact ih h

/-! ## Claims -/

/-- Claim C2, counterexample: rendering the create template with a filename
and an empty size yields an output ending in a space, so the rendered
output is not trimmed of trailing whitespace as the claim states. -/
theorem format_not_trimmed_counterexample :
    pa_format qemu_img_parameters create_cmd
      [("image_filename", PyVal.str "img"), ("image_size", PyVal.str "")] = some "create img "
    ∧ "create img ".data.getLast? = some ' ' := by
  constructor
  · decide
  · decide

/-- Claim C2 (amended): for every parameter table, template and value
mapping, an output of the assembler format has every run of multiple
spaces collapsed to a single space; leading and trailing whitespace is not
trimmed. -/
theorem format_collapses_spaces (cmd_params : List (String × String)) (parts : List TPart)
    (kwargs : List (String × PyVal)) (out : String)
    (h : pa_format cmd_params parts kwargs = some out) :
    noDoubleSpaceB out.data = true := by
  unfold pa_format at h
  cases hr : renderParts cmd_params kwargs parts with
  | none => rw [hr] at h; exact absurd h (by simp)
  | some r =>
    rw [hr] at h
    rw [show Option.map collapseSpaces (some r) = some (collapseSpaces r) from rfl] at h
    cases h
    exact collapse_no_double r.data

/-- Witness for the amended claim C2 at the concrete counterexample input. -/
theorem format_collapses_spaces_witness : noDoubleSpaceB "create img ".data = true :=
  format_collapses_spaces qemu_img_parameters create_cmd
    [("image_filename", PyVal.str "img"), ("image_size", PyVal.str "")] "create img "
    (by decide)

/-- Claim C3: compare_images returns the command result when the external
compare exits 0, raises the test-level TestFail on exit 1, raises the
fatal TestError on any other exit, and returns None with only a warning
when the tool does not advertise the compare sub-command. -/
theorem compare_images_classification (img : ImageState) (image1 image2 : String)
    (strict_mode force_share : Bool) (r : CmdResult) :
    (support_cmd img "compare" = false →
      compare_images img image1 image2 strict_mode force_share r
        = CompareOutcome.unsupportedNone)
    ∧ (support_cmd img "compare" = true →
        (r.exit_status = 0 →
          compare_images img image1 image2 strict_mode force_share r = CompareOutcome.result r)
        ∧ (r.exit_status = 1 →
          compare_images img image1 image2 strict_mode force_share r
            = CompareOutcome.testFailDiffer)
        ∧ (r.exit_status ≠ 0 → r.exit_status ≠ 1 →
          compare_images img image1 image2 strict_mode force_share r
            = CompareOutcome.testErrorCompare)) := by
  refine ⟨fun h => by simp [compare_images, h], fun h => ⟨?_, ?_, ?_⟩⟩
  · intro h0; simp [compare_images, h, h0]
  · intro h1; simp [compare_images, h, h1]
  · intro h0 h1; simp [compare_images, h, h0, h1]

/-- Witness for claim C3 covering all four outcome shapes. -/
theorem compare_images_classification_witness :
    compare_images imgChk "/a" "/b" false false { exit_status := 0 }
      = CompareOutcome.unsupportedNone
    ∧ compare_images imgCmp "/a" "/b" false false { exit_status := 0 }
      = CompareOutcome.result { exit_status := 0 }
    ∧ compare_images imgCmp "/a" "/b" false false { exit_status := 1 }
      = CompareOutcome.testFailDiffer
    ∧ compare_images imgCmp "/a" "/b" false false { exit_status := 5 }
      = CompareOutcome.testErrorCompare :=
  ⟨(compare_images_classification imgChk "/a" "/b" false false { exit_status := 0 }).1
      (by decide),
   ((compare_images_classification imgCmp "/a" "/b" false false { exit_status := 0 }).2
      (by decide)).1 (by decide),
   ((compare_images_classification imgCmp "/a" "/b" false false { exit_status := 1 }).2
      (by decide)).2.1 (by decide),
   ((compare_images_classification imgCmp "/a" "/b" false false { exit_status := 5 }).2
      (by decide)).2.2 (by decide) (by decide)⟩

/-- Claim C4, code bug: amend called with ignore_status true still raises
CmdError on a non-zero exit, because the source passes a literal False to
the process runner instead of its ignore_status argument; its docstring
says true must suppress the raise. -/
theorem amend_ignore_status_bug :
    amend imgChk [("amend_size", "20G")] Option.none true { exit_status := 1 }
      = Except.error ("CmdError: " ++ amendCmdline imgChk [("amend_size", "20G")] Option.none)
    ∧ amendCmdline imgChk [("amend_size", "20G")] Option.none
      = "qemu-img amend -o size=20G -f qcow2 /tmp/image1.qcow2" := by
  constructor
  · rfl
  · decide

/-- Claim C5: with no explicit representation requested, get_image_repr
returns the json form exactly when the image has an associated encryption
secret, and the bare resolved filename otherwise. -/
theorem get_image_repr_default_selection (image : String) (p : Params) (root_dir : String) :
    ((image_secret_define_by_params image p).isSome = true →
      get_image_repr image p root_dir Option.none = get_image_json image p root_dir)
    ∧ ((image_secret_define_by_params image p).isSome = false →
      get_image_repr image p root_dir Option.none = storage_get_image_filename p root_dir) := by
  constructor <;> intro h <;> simp [get_image_repr, h]

/-- Witness for claim C5: both selection branches at concrete parameters. -/
theorem get_image_repr_default_selection_witness :
    get_image_repr "image1" pSec "" Option.none = get_image_json "image1" pSec ""
    ∧ get_image_repr "image1" pPlain "" Option.none = storage_get_image_filename pPlain "" :=
  ⟨(get_image_repr_default_selection "image1" pSec "").1 (by decide),
   (get_image_repr_default_selection "image1" pPlain "").2 (by decide)⟩

/-- Claim C7: the dd branch of create translates the size suffix through
the fixed table, K giving count multiplier 1 with block size 1K, M count
multiplier 1 with block size 1024K, G count multiplier 1024 with block
size 1024K and T count multiplier 1024 with block size 1048576K, so that
count times block size in bytes equals the requested byte count. -/
theorem create_dd_human_table (img : ImageState) (p base_params backing_params : Params)
    (n : Nat) (hdd : p.create_with_dd = some "yes") (hraw : img.image_format = "raw")
    (hn : pyInt img.size.data.dropLast = some n) :
    (img.size.data.getLast? = some 'K' →
      create img p base_params backing_params
        = some (CreateAction.dd (n * 1) 1 img.image_filename)
      ∧ (n * 1) * (1 * 1024) = n * 1024) ∧
    (img.size.data.getLast? = some 'M' →
      create img p base_params backing_params
        = some (CreateAction.dd (n * 1) 1024 img.image_filename)
      ∧ (n * 1) * (1024 * 1024) = n * 1048576) ∧
    (img.size.data.getLast? = some 'G' →
      create img p base_params backing_params
        = some (CreateAction.dd (n * 1024) 1024 img.image_filename)
      ∧ (n * 1024) * (1024 * 1024) = n * 1073741824) ∧
    (img.size.data.getLast? = some 'T' →
      create img p base_params backing_params
        = some (CreateAction.dd (n * 1024) 1048576 img.image_filename)
      ∧ (n * 1024) * (1048576 * 1024) = n * 1099511627776) := by
  refine ⟨fun hlast => ⟨?_, by ring⟩, fun hlast => ⟨?_, by ring⟩,
          fun hlast => ⟨?_, by ring⟩, fun hlast => ⟨?_, by ring⟩⟩ <;>
    simp [create, hdd, hraw, hlast, ddHuman, hn]

/-- Witness for claim C7: size 2K yields count 2 with block size 1K. -/
theorem create_dd_human_table_witness :
    create imgRaw2K pDd {} {} = some (CreateAction.dd (2 * 1) 1 "/tmp/image1.raw")
    ∧ (2 * 1) * (1 * 1024) = 2 * 1024 :=
  (create_dd_human_table imgRaw2K pDd {} {} 2 rfl rfl (by decide)).1 (by decide)

/-- Claim C9, counterexample: with the same key secret listed twice, two
identical secret-object clauses are emitted, so the emitted clauses are
not deduplicated per distinct key secret. -/
theorem secret_objects_duplicate_counterexample :
    _secret_objects { image_key_secrets := [⟨"s0", "d0", "image1"⟩, ⟨"s0", "d0", "image1"⟩] }
      = ["--object secret,id=s0,data=d0", "--object secret,id=s0,data=d0"]
    ∧ ¬ (_secret_objects
          { image_key_secrets := [⟨"s0", "d0", "image1"⟩, ⟨"s0", "d0", "image1"⟩] }).Pairwise
        (· ≠ ·) := by
  constructor
  · decide
  · decide

/-- Claim C9 (amended): one secret-object clause is emitted per occurrence
in the image key-secret list, in order, with no deduplication: the clause
list has the length of the key-secret list, the clause at every position
is the one generated from the key secret at that position, and each clause
occurs as often as the key secrets that render to it. -/
theorem secret_objects_per_occurrence (e : EncryptionConfig) (s : ImageSecret) :
    (_secret_objects e).length = e.image_key_secrets.length
    ∧ (∀ (i : Nat) (h1 : i < (_secret_objects e).length)
        (h2 : i < e.image_key_secrets.length),
        (_secret_objects e).get ⟨i, h1⟩ = secret_obj_str (e.image_key_secrets.get ⟨i, h2⟩))
    ∧ (_secret_objects e).count (secret_obj_str s)
      = e.image_key_secrets.countP (fun t => secret_obj_str t == secret_obj_str s) := by
  refine ⟨by simp [_secret_objects], ?_,
    count_map_eq_countP secret_obj_str e.image_key_secrets (secret_obj_str s)⟩
  intro i h1 h2
  simp [_secret_objects]

/-- Witness for the amended claim C9: the positional correspondence at the
first key secret of the encrypted fixture configuration. -/
theorem secret_objects_per_occurrence_witness :
    (_secret_objects imgSec.encryption_config).length
      = imgSec.encryption_config.image_key_secrets.length
    ∧ (_secret_objects imgSec.encryption_config).get ⟨0, by decide⟩
      = secret_obj_str (imgSec.encryption_config.image_key_secrets.get ⟨0, by decide⟩)
    ∧ (_secret_objects imgSec.encryption_config).count (secret_obj_str secS0)
      = imgSec.encryption_config.image_key_secrets.countP
          (fun t => secret_obj_str t == secret_obj_str secS0) :=
  ⟨(secret_objects_per_occurrence imgSec.encryption_config secS0).1,
   (secret_objects_per_occurrence imgSec.encryption_config secS0).2.1 0 (by decide) (by decide),
   (secret_objects_per_occurrence imgSec.encryption_config secS0).2.2⟩

/-- Claim C10: when the dd branch is selected but the last character of
the configured size is not a suffix of the table, create fails with an
unhandled error before any external process is spawned. -/
theorem create_dd_bad_suffix_fails (img : ImageState) (p base_params backing_params : Params)
    (c : Char) (hdd : p.create_with_dd = some "yes") (hraw : img.image_format = "raw")
    (hlast : img.size.data.getLast? = some c)
    (hc : c ≠ 'K' ∧ c ≠ 'M' ∧ c ≠ 'G' ∧ c ≠ 'T') :
    create img p base_params backing_params = Option.none := by
  obtain ⟨h1, h2, h3, h4⟩ := hc
  simp [create, hdd, hraw, hlast, ddHuman, h1, h2, h3, h4]

/-- Witness for claim C10: a bare byte count as the size. -/
theorem create_dd_bad_suffix_fails_witness : create imgRaw1024 pDd {} {} = Option.none :=
  create_dd_bad_suffix_fails imgRaw1024 pDd {} {} '4' rfl rfl (by decide) (by decide)

/-- Claim C1: on an existing, checkable image whose tool supports the
check and info sub-commands, check_image classifies the exit status of the
external check command deterministically: exit 0 returns normally, exit 1
raises the non-fatal internal-error warning, exit 2 raises the fatal
VMImageCheckError, and exit 3 raises the non-fatal leaked-clusters
warning; the backup action is triggered for exits 1 and 2 exactly when the
backup parameter says yes. -/
theorem check_image_exit_classification (img : ImageState) (p : Params) (root_dir : String)
    (force_share is_remote : Bool)
    (hfmt : img.image_format = "qcow2" ∨ img.image_format = "qed")
    (hchk : support_cmd img "check" = true) (hinfo : support_cmd img "info" = true) :
    (check_image img p root_dir force_share true is_remote 0).classification
      = some CheckClassification.passed
    ∧ (check_image img p root_dir force_share true is_remote 1).classification
      = some (CheckClassification.testWarnInternal
          (p.backup_image_on_check_error.getD "no" == "yes"))
    ∧ (check_image img p root_dir force_share true is_remote 2).classification
      = some (CheckClassification.vmImageCheckError
          (p.backup_image_on_check_error.getD "no" == "yes"))
    ∧ (check_image img p root_dir force_share true is_remote 3).classification
      = some CheckClassification.testWarnLeaked := by
  rcases hfmt with hf | hf <;>
    refine ⟨?_, ?_, ?_, ?_⟩ <;>
      simp [check_image, hf, hchk, hinfo, CheckResult.classification]

/-- Witness for claim C1: the fatal and the passing branch on the plain
fixture image. -/
theorem check_image_exit_classification_witness :
    (check_image imgChk {} "" false true false 2).classification
      = some (CheckClassification.vmImageCheckError false)
    ∧ (check_image imgChk {} "" false true false 0).classification
      = some CheckClassification.passed := by
  have h := check_image_exit_classification imgChk {} "" false false (Or.inl rfl)
    (by decide) (by decide)
  exact ⟨h.2.2.1, h.1⟩

/-- Claim C6: an image that carries an encryption secret is referenced
through its quoted json representation rather than the bare filename
wherever a command references it: as a backing file in create, and as the
target of check_image and resize; the two forms are never mixed for that
image in one command. -/
theorem secret_images_use_json_representation
    (img : ImageState) (p base_params backing_params : Params) (root_dir : String)
    (size : String) (shrink : Bool) (preallocation : Option String)
    (force_share file_exists is_remote : Bool) (exit_status : Nat) (r : CmdResult)
    (t : String) :
    (img.base_tag = some t →
      t ∈ img.encryption_config.base_key_secrets.map (·.image_id) →
      assocLookup (createCmdDict img p base_params backing_params) "backing_file"
        = some (PyVal.str (quoted (get_image_json t base_params img.root_dir))))
    ∧ (img.encryption_config.key_secret.isSome = true →
      ∀ d c, check_image img p root_dir force_share file_exists is_remote exit_status
          = CheckResult.ran d c →
        assocLookup d "image_filename"
          = some (PyVal.str (quoted (get_image_json img.tag p root_dir))))
    ∧ (img.encryption_config.key_secret.isSome = true →
      assocLookup (resize img size shrink preallocation r).1 "image_filename"
        = some (PyVal.str (quoted (get_image_json img.tag img.params img.root_dir)))) := by
  refine ⟨?_, ?_, ?_⟩
  · intro hbt hmem
    unfold createCmdDict
    simp only [hbt, if_pos hmem]
    split <;> split <;> simp [assocLookup]
  · intro hsec d c hran
    simp only [check_image] at hran
    repeat' split at hran
    all_goals
      first
      | exact absurd hsec (by assumption)
      | exact CheckResult.noConfusion hran
      | (injection hran with h1 h2; subst h1; simp [assocSet, assocLookup])
  · intro hsec
    unfold resize
    simp only [hsec, if_true]
    split <;> simp [assocSet, assocLookup]

/-- Witness for claim C6: the backing reference of create on a fixture
whose base image has a secret, and the check and resize targets of an
encrypted fixture image. -/
theorem secret_images_use_json_representation_witness :
    assocLookup (createCmdDict imgWithBase {} pBase {}) "backing_file"
      = some (PyVal.str (quoted (get_image_json "base1" pBase "")))
    ∧ assocLookup dSecCheck "image_filename"
      = some (PyVal.str (quoted (get_image_json "image1" pSec "")))
    ∧ assocLookup (resize imgSec "+1G" false Option.none { exit_status := 0 }).1
        "image_filename"
      = some (PyVal.str (quoted (get_image_json "image1" pSec ""))) :=
  ⟨(secret_images_use_json_representation imgWithBase {} pBase {} "" "" false Option.none
      false true false 0 { exit_status := 0 } "base1").1 rfl (by decide),
   (secret_images_use_json_representation imgSec pSec pBase {} "" "+1G" false Option.none
      false true false 0 { exit_status := 0 } "base1").2.1 (by decide) dSecCheck
      CheckClassification.passed (by decide),
   (secret_images_use_json_representation imgSec pSec pBase {} "" "+1G" false Option.none
      false true false 0 { exit_status := 0 } "base1").2.2 (by decide)⟩

theorem ruleOpt_keys (fmt : String) (sup : List String) (val : Option String) (k : String)
    (hk : ∀ c ∈ k.data, (c != '=') = true) :
    List.Sublist ((ruleOpt fmt sup val k).map entryKey) [k] := by
  unfold ruleOpt
  by_cases hf : fmt ∈ sup
  · rw [if_pos hf]
    cases val with
    | none => exact List.nil_sublist _
    | some v =>
      show (List.map entryKey (if v = "off" then [] else [k ++ "=" ++ v])).Sublist [k]
      by_cases hv : v = "off"
      · rw [if_pos hv]; exact List.nil_sublist _
      · rw [if_neg hv]
        have he : entryKey (k ++ "=" ++ v) = k := entryKey_concat k v hk
        simp only [List.map, he]
        exact List.Sublist.refl [k]
  · rw [if_neg hf]; exact List.nil_sublist _

theorem rule1Options_keys (p : Params) (fmt : String) :
    List.Sublist ((rule1Options p fmt).map entryKey) rule1KeyList := by
  unfold rule1Options rule1KeyList
  rw [List.map_append, List.map_append, List.map_append]
  exact ((((ruleOpt_keys fmt _ _ "preallocation" (by decide)).append
    (ruleOpt_keys fmt _ _ "cluster_size" (by decide))).append
      (ruleOpt_keys fmt _ _ "lazy_refcounts" (by decide))).append
        (ruleOpt_keys fmt _ _ "compat" (by decide)))

theorem enc_opts_not_luks : enc_slots.erase "base_key_secrets"
    = ["format", "key_secret", "cipher_alg", "cipher_mode", "ivgen_alg",
       "ivgen_hash_alg", "hash_alg"] := by decide

theorem enc_opts_luks : (enc_slots.erase "base_key_secrets").erase "format"
    = ["key_secret", "cipher_alg", "cipher_mode", "ivgen_alg", "ivgen_hash_alg",
       "hash_alg"] := by decide

theorem encOptions_keys (fmt : String) (e : EncryptionConfig) :
    List.Sublist ((encOptions fmt e).map entryKey) (encKeys fmt) := by
  simp only [encOptions, encKeys]
  apply map_filterMap_sublist
  intro a ha b hb
  have hkey : ∀ c ∈ (dashify (encPref fmt a)).data, (c != '=') = true := by
    by_cases hq : fmt = "qcow2"
    · subst hq
      rw [if_neg (by decide), enc_opts_not_luks] at ha
      simp at ha
      rcases ha with rfl | rfl | rfl | rfl | rfl | rfl | rfl <;> decide
    · by_cases hl : fmt = "luks"
      · subst hl
        rw [if_pos rfl, enc_opts_luks] at ha
        simp at ha
        rcases ha with rfl | rfl | rfl | rfl | rfl | rfl <;> decide
      · rw [if_neg hl, enc_opts_not_luks] at ha
        simp at ha
        have hpref : ∀ k : String, encPref fmt k = k := by
          intro k; unfold encPref; rw [if_neg hq]
        rw [hpref a]
        rcases ha with rfl | rfl | rfl | rfl | rfl | rfl | rfl <;> decide
  cases hv : enc_getattr e a with
  | none => rw [hv] at hb; exact absurd hb (by simp)
  | some v =>
    rw [hv] at hb
    replace hb : (if v = "" then Option.none
        else some (dashify (encPref fmt a) ++ "=" ++ v)) = some b := hb
    by_cases hv0 : v = ""
    · rw [if_pos hv0] at hb; exact absurd hb (by simp)
    · rw [if_neg hv0] at hb
      have hb2 : dashify (encPref fmt a) ++ "=" ++ v = b := by injection hb
      subst hb2
      exact entryKey_concat _ _ hkey

theorem backingOptions_keys (p bp : Params) (root : String) :
    List.Sublist ((backingOptions p bp root).map entryKey) backingKeys := by
  unfold backingOptions backingKeys
  split
  · simp only [List.map]
    rw [entryKey_concat "backing_file" _ (by decide), entryKey_concat "backing_fmt" _ (by decide)]
  · exact List.nil_sublist _

theorem encKeys_qcow2 : encKeys "qcow2" = ["encrypt.format", "encrypt.key-secret",
    "encrypt.cipher-alg", "encrypt.cipher-mode", "encrypt.ivgen-alg",
    "encrypt.ivgen-hash-alg", "encrypt.hash-alg"] := by decide

theorem encKeys_luks : encKeys "luks" = ["key-secret", "cipher-alg", "cipher-mode",
    "ivgen-alg", "ivgen-hash-alg", "hash-alg"] := by decide

theorem encKeys_other (fmt : String) (hq : fmt ≠ "qcow2") (hl : fmt ≠ "luks") :
    encKeys fmt = ["format", "key-secret", "cipher-alg", "cipher-mode", "ivgen-alg",
                   "ivgen-hash-alg", "hash-alg"] := by
  unfold encKeys
  rw [if_neg hl, enc_opts_not_luks]
  have hpref : ∀ k : String, encPref fmt k = k := by
    intro k; unfold encPref; rw [if_neg hq]
  simp only [List.map, hpref]
  decide

theorem pairwise_all_keys (fmt : String) :
    (rule1KeyList ++ encKeys fmt ++ backingKeys).Pairwise (· ≠ ·) := by
  by_cases hq : fmt = "qcow2"
  · subst hq; rw [encKeys_qcow2]; decide
  · by_cases hl : fmt = "luks"
    · subst hl; rw [encKeys_luks]; decide
    · rw [encKeys_other fmt hq hl]; decide

theorem backing_not_in_head_keys (fmt : String) :
    "backing_file" ∉ rule1KeyList ++ encKeys fmt
    ∧ "backing_fmt" ∉ rule1KeyList ++ encKeys fmt := by
  by_cases hq : fmt = "qcow2"
  · subst hq; rw [encKeys_qcow2]; constructor <;> decide
  · by_cases hl : fmt = "luks"
    · subst hl; rw [encKeys_luks]; constructor <;> decide
    · rw [encKeys_other fmt hq hl]; constructor <;> decide

/-- Claim C8, counterexample: the free-form image_extra_params string is
appended verbatim, so a parameter mapping can make the option list carry
two entries with the key preallocation. -/
theorem parse_options_duplicate_key_counterexample :
    _parse_options {} ""
      { preallocated := some "full", image_extra_params := some "preallocation=off" } {}
      = ["preallocation=full", "preallocation=off"]
    ∧ ¬ ((_parse_options {} ""
          { preallocated := some "full", image_extra_params := some "preallocation=off" }
          {}).map entryKey).Pairwise (· ≠ ·) := by
  constructor
  · decide
  · decide

/-- Claim C8 (amended): when the free-form image_extra_params is absent,
the option list built by _parse_options never contains two entries with
the same key, and its backing_file and backing_fmt entries appear exactly
when has_backing_file is yes. -/
theorem parse_options_unique_keys (p backing_params : Params) (e : EncryptionConfig)
    (root_dir : String) (hextra : p.image_extra_params = Option.none) :
    ((_parse_options e root_dir p backing_params).map entryKey).Pairwise (· ≠ ·)
    ∧ ("backing_file" ∈ (_parse_options e root_dir p backing_params).map entryKey
        ↔ p.has_backing_file = some "yes")
    ∧ ("backing_fmt" ∈ (_parse_options e root_dir p backing_params).map entryKey
        ↔ p.has_backing_file = some "yes") := by
  have hex : extraOptions p = [] := by simp [extraOptions, hextra]
  have hopts : _parse_options e root_dir p backing_params
      = rule1Options p (p.image_format.getD "qcow2")
        ++ (if e.key_secret.isSome then encOptions (p.image_format.getD "qcow2") e else [])
        ++ extraOptions p
        ++ backingOptions p backing_params root_dir := rfl
  have henc : List.Sublist
      ((if e.key_secret.isSome then encOptions (p.image_format.getD "qcow2") e
        else []).map entryKey)
      (encKeys (p.image_format.getD "qcow2")) := by
    split
    · exact encOptions_keys _ e
    · exact List.nil_sublist _
  have hsub : List.Sublist ((_parse_options e root_dir p backing_params).map entryKey)
      (rule1KeyList ++ encKeys (p.image_format.getD "qcow2") ++ backingKeys) := by
    rw [hopts, hex, List.append_nil, List.map_append, List.map_append]
    exact ((rule1Options_keys p _).append henc).append
      (backingOptions_keys p backing_params root_dir)
  have hsub2 : p.has_backing_file ≠ some "yes" →
      List.Sublist ((_parse_options e root_dir p backing_params).map entryKey)
        (rule1KeyList ++ encKeys (p.image_format.getD "qcow2")) := by
    intro hno
    have hb0 : backingOptions p backing_params root_dir = [] := by
      unfold backingOptions; rw [if_neg hno]
    rw [hopts, hex, List.append_nil, hb0, List.append_nil, List.map_append]
    exact (rule1Options_keys p _).append henc
  have hb1 : p.has_backing_file = some "yes" → backingOptions p backing_params root_dir
      = ["backing_file" ++ "=" ++ storage_get_image_filename backing_params root_dir,
         "backing_fmt" ++ "=" ++ (backing_params.image_format.getD "None")] := by
    intro hyes
    unfold backingOptions; rw [if_pos hyes]
  refine ⟨(pairwise_all_keys _).sublist hsub, ⟨?_, ?_⟩, ⟨?_, ?_⟩⟩
  · intro hmem
    by_contra hno
    exact (backing_not_in_head_keys _).1 ((hsub2 hno).subset hmem)
  · intro hyes
    rw [hopts, hb1 hyes]
    refine List.mem_map.mpr
      ⟨"backing_file" ++ "=" ++ storage_get_image_filename backing_params root_dir,
       ?_, entryKey_concat _ _ (by decide)⟩
    simp
  · intro hmem
    by_contra hno
    exact (backing_not_in_head_keys _).2 ((hsub2 hno).subset hmem)
  · intro hyes
    rw [hopts, hb1 hyes]
    refine List.mem_map.mpr
      ⟨"backing_fmt" ++ "=" ++ (backing_params.image_format.getD "None"),
       ?_, entryKey_concat _ _ (by decide)⟩
    simp

/-- Witness for the amended claim C8 at concrete parameters with a backing
file and no extra options. -/
theorem parse_options_unique_keys_witness :
    ((_parse_options {} "" pOpt pBack).map entryKey).Pairwise (· ≠ ·)
    ∧ ("backing_file" ∈ (_parse_options {} "" pOpt pBack).map entryKey
        ↔ pOpt.has_backing_file = some "yes")
    ∧ ("backing_fmt" ∈ (_parse_options {} "" pOpt pBack).map entryKey
        ↔ pOpt.has_backing_file = some "yes") :=
  parse_options_unique_keys pOpt pBack {} "" rfl
